import Mathlib

/-!
Verification development for the md2docx asynchronous document-conversion
pipeline.  The definitions below are a shallow embedding of the Python
sources: `md2docx/formats.py`, `md2docx/signals.py`,
`md2docx/management/commands/process_tasks.py` and `md2docx/views.py`.
Strings model Python strings, lists model Python lists, and the Django
task record is modelled as an explicit structure that the executor
functions update by pure state passing.
-/

namespace Md2Docx

/-- Status values of a conversion task, from `models.ConversionTask`
(STATUS_PENDING, STATUS_PROCESSING, STATUS_DONE, STATUS_FAILED). -/
inductive TaskStatus where
  | pending
  | processing
  | done
  | failed
deriving DecidableEq, Repr

/-- Embedding of the `ConversionTask` Django model record.  The `result_file`
field holds the stored file name relative to the media root (empty string
models an unset FileField, matching Python truthiness checks). -/
structure Task where
  id : String
  status : TaskStatus
  progress : Nat
  output_format : String
  original_filename : String
  result_file : String
  error_message : String
deriving DecidableEq, Repr

/-! ## formats.py -/

/-- Table of supported output formats keyed by input extension, from
`formats.SUPPORTED_OUTPUTS`. -/
def SUPPORTED_OUTPUTS : List (String × List String) :=
  [ ("md", ["docx", "pdf", "html", "odt", "rtf", "tex", "epub"]),
    ("markdown", ["docx", "pdf", "html", "odt", "rtf", "tex", "epub"]),
    ("docx", ["md", "pdf", "html", "odt", "rtf", "tex"]),
    ("html", ["md", "pdf", "docx", "odt"]),
    ("htm", ["md", "pdf", "docx", "odt"]),
    ("tex", ["pdf", "docx", "md"]),
    ("rtf", ["md", "docx", "pdf"]),
    ("odt", ["md", "docx", "pdf"]),
    ("epub", ["md", "docx", "pdf"]),
    ("pdf", ["md", "docx", "html"]) ]

/-- Table mapping input file extensions to pandoc reader names, from
`formats.INPUT_READERS`. -/
def INPUT_READERS : List (String × String) :=
  [ ("md", "markdown"),
    ("markdown", "markdown"),
    ("txt", "markdown"),
    ("docx", "docx"),
    ("html", "html"),
    ("htm", "html"),
    ("rtf", "rtf"),
    ("odt", "odt"),
    ("tex", "latex"),
    ("epub", "epub"),
    ("pdf", "pdf") ]

/-- Default output format, from `formats.DEFAULT_OUTPUT`. -/
def DEFAULT_OUTPUT : String := "docx"

/-- Default pandoc reader, from `formats.DEFAULT_INPUT_READER`. -/
def DEFAULT_INPUT_READER : String := "markdown"

/-- Embedding of Python `str.lower()` (ASCII case folding; all extension
table keys and the format names handled by the system are ASCII). -/
def pyToLower (s : String) : String :=
  ⟨s.data.map Char.toLower⟩

/-- Embedding of `formats.allowed_outputs`: lower-case the extension and
look it up in the table, defaulting to `[DEFAULT_OUTPUT]`. -/
def allowed_outputs (input_ext : String) : List String :=
  ((SUPPORTED_OUTPUTS.lookup (pyToLower input_ext)).getD [DEFAULT_OUTPUT])

/-- Embedding of `formats.input_reader_for`. -/
def input_reader_for (ext : String) : String :=
  ((INPUT_READERS.lookup (pyToLower ext)).getD DEFAULT_INPUT_READER)

/-! ## Filename helpers (signals.py / process_tasks.py)

`_safe_output_name` uses `pathlib.Path(...).name`, `Path(...).stem`,
`str.strip()`, `str.lstrip('.')` and
`re.sub(r"[^A-Za-z0-9_-]+", '_', stem)`.  Each helper below embeds one of
those Python operations. -/

/-- Embedding of Python `str.lstrip` with the single character dot:
removes every leading dot. -/
def pyLstripDot (s : String) : String :=
  ⟨s.data.dropWhile (fun c => c = '.')⟩

/-- Whitespace characters removed by Python `str.strip()` (ASCII subset;
the inputs of interest contain no exotic unicode whitespace). -/
def isPyWhitespace (c : Char) : Bool :=
  c = ' ' || c = '\t' || c = '\n' || c = '\r' || c = '\x0b' || c = '\x0c'

/-- Embedding of Python `str.strip()`. -/
def pyStrip (s : String) : String :=
  ⟨((s.data.dropWhile isPyWhitespace).reverse.dropWhile isPyWhitespace).reverse⟩

/-- Splits a character list on the slash separator. -/
def splitSlashAux : List Char → List Char → List String
  | [], acc => [⟨acc.reverse⟩]
  | c :: rest, acc =>
    if c = '/' then ⟨acc.reverse⟩ :: splitSlashAux rest []
    else splitSlashAux rest (c :: acc)

/-- Path components of a string, split on the slash separator. -/
def splitSlash (s : String) : List String :=
  splitSlashAux s.data []

/-- Embedding of `pathlib.PurePosixPath(...).name`: the final path
component, after dropping empty and single-dot components. -/
def pathName (s : String) : String :=
  ((splitSlash s).filter (fun p => p ≠ "" ∧ p ≠ ".")).getLastD ""

/-- Splits a character list at its last dot, returning the part before and
the part after; `none` when no dot occurs. -/
def lastDotSplit : List Char → Option (List Char × List Char)
  | [] => none
  | c :: rest =>
    match lastDotSplit rest with
    | some (a, b) => some (c :: a, b)
    | none => if c = '.' then some ([], rest) else none

/-- Embedding of `pathlib.PurePath.stem` on a bare file name: drop the
suffix starting at the last dot, except when that dot is the first or the
last character (matching the CPython bound check `0 < i < len(name) - 1`). -/
def pyStem (name : String) : String :=
  match lastDotSplit name.data with
  | some (a, b) => if a ≠ [] ∧ b ≠ [] then ⟨a⟩ else name
  | none => name

/-- Characters kept by the sanitizer character class `[A-Za-z0-9_-]`. -/
def isSafeChar (c : Char) : Bool :=
  c.isAlphanum || c = '_' || c = '-'

/-- Worker for `sanitizeStem`: the flag records whether the previous
character belonged to a run of disallowed characters already replaced, so
that each maximal run contributes a single underscore (the `+` in the
regular expression `[^A-Za-z0-9_-]+`). -/
def sanitizeAux : Bool → List Char → List Char
  | _, [] => []
  | prevReplaced, c :: rest =>
    if isSafeChar c then c :: sanitizeAux false rest
    else if prevReplaced then sanitizeAux true rest
    else '_' :: sanitizeAux true rest

/-- Embedding of `re.sub(r"[^A-Za-z0-9_-]+", '_', stem)`: every maximal
run of characters outside `[A-Za-z0-9_-]` becomes one underscore. -/
def sanitizeStem (s : String) : String :=
  ⟨sanitizeAux false s.data⟩

/-- Embedding of `_safe_output_name` (identical in `signals.py` and
`process_tasks.py`): derive the output file name from the original
filename and the requested output format, falling back to the task id. -/
def safe_output_name (t : Task) : String :=
  let ext := pyLstripDot (if t.output_format = "" then DEFAULT_OUTPUT else t.output_format)
  if t.original_filename ≠ "" then
    let stem := pathName t.original_filename
    let stem := pyStem stem
    let stem := pyStrip stem
    let stem := sanitizeStem stem
    if stem ≠ "" then stem ++ "." ++ ext else t.id ++ "." ++ ext
  else t.id ++ "." ++ ext

/-- Output path of a task relative to the media root: the executor writes
to `EXPORTS_DIR / output_filename` and stores
`os.path.relpath(output_path, MEDIA_ROOT)`, which is
`exports/<output_filename>`. -/
def outputRelPath (t : Task) : String :=
  "exports/" ++ safe_output_name t

/-- Input path of a task relative to the media root, from the submission
views: `UPLOADS_DIR / f"{task.id}.{dest_ext}"` with
`dest_ext = input_ext or 'md'`. -/
def inputRelPath (taskId : String) (input_ext : String) : String :=
  "uploads/" ++ taskId ++ "." ++ (if input_ext = "" then "md" else input_ext)

/-! ## Conversion executor (signals._process_task / process_tasks Command.handle)

Both executors run the same steps: claim the task (status PROCESSING with a
first progress checkpoint), resolve paths (second checkpoint), run pandoc,
then write the terminal state.  The attempt outcome of the external
subprocess is an input of the model: either the subprocess ran to
completion (exit code, captured streams, and whether the output file
exists afterwards), or an exception was raised during the attempt (which
includes the timeout raised by `subprocess.run` in `signals.py`); Python
`str(exc)` is modelled as the exception message string. -/

/-- Outcome of one execution attempt, as observed by the executor. -/
inductive Attempt where
  | ran (returncode : Int) (stdoutText : String) (stderrText : String) (outputExists : Bool)
  | raised (msg : String)
deriving DecidableEq, Repr

/-- Embedding of the Python string `or` fallback chain on strings: the
first operand when non-empty (truthy), otherwise the second. -/
def pyOrS (a b : String) : String :=
  if a = "" then b else a

/-- Success condition of the executor: zero exit status and the output
file exists on disk (`proc.returncode == 0 and output_path.exists()`). -/
def attemptSuccess : Attempt → Bool
  | .ran rc _ _ outputExists => rc == 0 && outputExists
  | .raised _ => false

/-- Trace of task states saved to the store by one execution attempt, for
an executor with progress checkpoints `p1`, `p2` and generic failure
message `generic`.  The first two saves claim the task and report the
checkpoints; the last is the terminal save.  On `raised`, the catch-all
handler sets status FAILED, `error_message = str(exc)` and progress 0 on
the in-memory record, so the terminal fields do not depend on where in
steps 1-5 the exception occurred. -/
def execTrace (p1 p2 : Nat) (generic : String) (t : Task) (a : Attempt) : List Task :=
  let s1 := { t with status := .processing, progress := p1 }
  let s2 := { s1 with progress := p2 }
  match a with
  | .ran rc stdoutText stderrText outputExists =>
    if rc == 0 && outputExists then
      [s1, s2, { s2 with result_file := outputRelPath t, status := .done,
                         progress := 100, error_message := "" }]
    else
      [s1, s2, { s2 with status := .failed, progress := 0,
                         error_message := pyOrS stderrText (pyOrS stdoutText generic) }]
  | .raised msg =>
    [s1, s2, { s2 with status := .failed, error_message := msg, progress := 0 }]

/-- Terminal task state written by one execution attempt. -/
def execFinal (p1 p2 : Nat) (generic : String) (t : Task) (a : Attempt) : Task :=
  (execTrace p1 p2 generic t a).getLastD t

/-- Generic failure message of `signals._process_task`. -/
def signalsGenericMsg : String := "pandoc failed with no output"

/-- Generic failure message of the `process_tasks` management command. -/
def workerGenericMsg : String := "pandoc failed"

/-- Saved-state trace of `signals._process_task` (checkpoints 20 and 40). -/
def signalsTrace (t : Task) (a : Attempt) : List Task :=
  execTrace 20 40 signalsGenericMsg t a

/-- Terminal state written by `signals._process_task`. -/
def signalsFinal (t : Task) (a : Attempt) : Task :=
  execFinal 20 40 signalsGenericMsg t a

/-- Saved-state trace of the `process_tasks` worker (checkpoints 5 and 20). -/
def workerTrace (t : Task) (a : Attempt) : List Task :=
  execTrace 5 20 workerGenericMsg t a

/-- Terminal state written by the `process_tasks` worker loop body. -/
def workerFinal (t : Task) (a : Attempt) : Task :=
  execFinal 5 20 workerGenericMsg t a

/-- Timeout passed to `subprocess.run` in `signals._process_task`
(`timeout=60`). -/
def signalsSubprocessTimeout : Option Nat := some 60

/-- Timeout passed to `subprocess.run` in the `process_tasks` worker:
the call `subprocess.run(cmd, capture_output=True, text=True)` passes
no timeout argument. -/
def workerSubprocessTimeout : Option Nat := none

/-- Task record as created by the submission views
(`ConversionTask.objects.create(status=PENDING, output_format=...,
original_filename=...)` followed by `progress = 0`). -/
def newTask (taskId fmt orig : String) : Task :=
  { id := taskId, status := .pending, progress := 0, output_format := fmt,
    original_filename := orig, result_file := "", error_message := "" }

/-! ## Reachable task states (single-dispatch lifecycle)

A task state is reachable when it is a freshly created record, or a state
saved by either executor running on a reachable PENDING task (the polling
worker only selects PENDING tasks; the creation signal spawns its thread
only for a task created in PENDING).  The relation is parameterized by a
predicate restricting the attempt outcomes considered. -/

inductive ReachableW (P : Attempt → Prop) : Task → Prop where
  | created (taskId fmt orig : String) : ReachableW P (newTask taskId fmt orig)
  | sigStep {t s : Task} {a : Attempt} : ReachableW P t → t.status = .pending →
      P a → s ∈ signalsTrace t a → ReachableW P s
  | workStep {t s : Task} {a : Attempt} : ReachableW P t → t.status = .pending →
      P a → s ∈ workerTrace t a → ReachableW P s

/-- Reachable task states with arbitrary attempt outcomes. -/
def Reachable (t : Task) : Prop := ReachableW (fun _ => True) t

/-- Attempts whose catch-all exception text is non-empty. -/
def attemptMsgNonempty : Attempt → Prop
  | .ran _ _ _ _ => True
  | .raised msg => msg ≠ ""

/-- Mutual-exclusivity invariant claimed for task records:
`result_file` is populated iff DONE, `error_message` non-empty iff FAILED. -/
def TaskInv (t : Task) : Prop :=
  (t.result_file ≠ "" ↔ t.status = .done) ∧
  (t.error_message ≠ "" ↔ t.status = .failed)

/-! ## Submission views (views.convert_markdown / views.api_upload)

Both views detect the input extension from the uploaded file name (text
after the last dot, lower-cased; `md` when no file is uploaded and text
was pasted), default the requested output format to `docx`, and reject the
request with a 400 response before any task record is created when the
requested format is not in the allowed-outputs list. -/

/-- Embedding of `original_name.rsplit('.', 1)[-1]`: the text after the
last dot, or the whole string when it contains no dot. -/
def afterLastDot (name : String) : String :=
  match lastDotSplit name.data with
  | some p => ⟨p.2⟩
  | none => name

/-- Input-extension detection of the submission views: file uploads use
the lower-cased text after the last dot of the file name (empty when the
name has no dot); pasted text is treated as `md`. -/
def detectInputExt (uploadedName : Option String) : String :=
  match uploadedName with
  | some name => if name.data.contains '.' then pyToLower (afterLastDot name) else ""
  | none => "md"

/-- Embedding of the submission flow of `views.convert_markdown` and
`views.api_upload` up to task creation: validation happens first, and a
task record (plus the persisted input path) exists only when validation
passed.  An `Except.error` models the 400 response (the source message
additionally wraps the two interpolated values in single quotes). -/
def submitTask (taskId : String) (uploadedName : Option String)
    (markdownText : String) (outputFormat : Option String) :
    Except String (Task × String) :=
  if uploadedName = none ∧ markdownText = "" then
    .error "No file or markdown provided"
  else
    let originalName := uploadedName.getD ""
    let inputExt := detectInputExt uploadedName
    let allowed := allowed_outputs inputExt
    let chosen := pyToLower (outputFormat.getD "docx")
    if chosen ∈ allowed then
      .ok (newTask taskId chosen originalName, inputRelPath taskId inputExt)
    else
      .error ("Unsupported output format " ++ chosen ++ " for input type "
        ++ (if inputExt = "" then "unknown" else inputExt) ++ ".")

/-! ## Deletion view (views.delete_task) -/

/-- Store of task records together with the set of files below the media
root, modelled as lists. -/
structure Store where
  tasks : List Task
  files : List String
deriving DecidableEq, Repr

/-- Embedding of `views.delete_task`: a missing task id is a no-op (the
view just redirects); otherwise the stored output file is deleted when
`result_file` is set, the upload at `uploads/{id}.md` is removed when
present, and the record is deleted.  Removing an absent path from the file
list is a no-op, matching the ignored exceptions in the source. -/
def delete_task (st : Store) (taskId : String) : Store :=
  match st.tasks.find? (fun t => t.id == taskId) with
  | none => st
  | some task =>
    let files1 := if task.result_file ≠ ""
      then st.files.filter (fun p => p ≠ task.result_file)
      else st.files
    let uploadPath := "uploads/" ++ task.id ++ ".md"
    let files2 := files1.filter (fun p => p ≠ uploadPath)
    { tasks := st.tasks.filter (fun t => t.id ≠ taskId), files := files2 }

/-! ## Dispatcher model (signals.process_conversion_on_create + worker loop)

The creation signal spawns a daemon thread for a task created in PENDING
status; the thread body `_process_task` fetches the record and processes it
unconditionally — it performs no status check of its own.  The worker loop
selects tasks whose current status is PENDING and processes each.  The
system state tracks one task, whether the spawned thread is still due to
run, and how many times a converter subprocess was invoked for the task. -/

structure SysState where
  task : Task
  threadDue : Bool
  invocations : Nat
deriving DecidableEq, Repr

/-- Dispatcher events: one worker-loop pickup or the run of the spawned
background thread, each with the attempt outcome of its execution. -/
inductive DispatchOp where
  | workerScan (a : Attempt)
  | threadRun (a : Attempt)
deriving DecidableEq, Repr

/-- One dispatcher event.  The worker processes the task only when it
observes status PENDING; the spawned thread, if still due, processes the
task without any status check (as in `_process_task`). -/
def dispatchStep (s : SysState) : DispatchOp → SysState
  | .workerScan a =>
    if s.task.status = .pending then
      { s with task := workerFinal s.task a, invocations := s.invocations + 1 }
    else s
  | .threadRun a =>
    if s.threadDue then
      { task := signalsFinal s.task a, threadDue := false,
        invocations := s.invocations + 1 }
    else s

/-- System state just after task creation: the `post_save` signal sees a
created record in PENDING status and spawns the background thread. -/
def initState (taskId fmt orig : String) : SysState :=
  { task := newTask taskId fmt orig, threadDue := true, invocations := 0 }

/-- Runs a sequence of dispatcher events. -/
def runOps (s : SysState) (ops : List DispatchOp) : SysState :=
  ops.foldl dispatchStep s

/-! ## Concrete scenarios used by the theorems below -/

/-- Task submitted with original filename `My Report (final)!.md` and
output format `pdf`, the example of the sanitization property. -/
def exampleSanitizeTask : Task :=
  { id := "tid", status := .pending, progress := 0, output_format := "pdf",
    original_filename := "My Report (final)!.md", result_file := "",
    error_message := "" }

/-- First of two distinct tasks submitted with the same original
filename. -/
def exampleTaskA : Task := newTask "aaaa-1111" "docx" "report.md"

/-- Second of two distinct tasks submitted with the same original
filename. -/
def exampleTaskB : Task := newTask "bbbb-2222" "docx" "report.md"

/-- Store holding one completed task whose uploaded input was persisted
with the `docx` extension (`uploads/t1.docx`), as happens when a client
uploads a `.docx` file requesting `pdf` output. -/
def exampleDeleteTask : Task :=
  { id := "t1", status := .done, progress := 100, output_format := "pdf",
    original_filename := "in.docx", result_file := "exports/in.pdf",
    error_message := "" }

/-- Store holding the completed task above together with its two files on
disk. -/
def exampleDeleteStore : Store :=
  { tasks := [exampleDeleteTask],
    files := ["uploads/t1.docx", "exports/in.pdf"] }

/-- Dispatcher schedule in which the polling worker picks a PENDING task
up and completes it before the creation-spawned thread gets to run. -/
def exampleRaceOps : List DispatchOp :=
  [DispatchOp.workerScan (.ran 0 "" "" true), DispatchOp.threadRun (.ran 0 "" "" true)]

/-! ## Helper lemmas -/

/-- Looking a key up in a table whose values are all non-empty, with a
non-empty default, yields a non-empty list. -/
theorem lookup_getD_ne_nil (l : List (String × List String))
    (h : ∀ p ∈ l, p.2 ≠ []) (k : String) (d : List String) (hd : d ≠ []) :
    ((l.lookup k).getD d) ≠ [] := by
  induction l with
  | nil => simpa [List.lookup] using hd
  | cons p rest ih =>
    obtain ⟨a, b⟩ := p
    simp only [List.lookup]
    split
    · simpa using h (a, b) (by simp)
    · exact ih fun q hq => h q (List.mem_cons_of_mem _ hq)

/-- Python string `or` returns a non-empty string when its fallback is
non-empty. -/
theorem pyOrS_ne_empty {a b : String} (hb : b ≠ "") : pyOrS a b ≠ "" := by
  unfold pyOrS
  split
  · exact hb
  · assumption

/-- Output paths always live below `exports/`, hence are non-empty. -/
theorem outputRelPath_ne_empty (t : Task) : outputRelPath t ≠ "" := by
  intro h
  have hd := congrArg String.data h
  rw [outputRelPath] at hd
  rw [String.data_append] at hd
  simp at hd

/-- Concatenations `a ++ dot ++ x` with dot-free prefixes are uniquely
parsed: equal concatenations have equal prefixes and equal tails. -/
theorem append_dot_inj {a : List Char} {x : List Char} :
    ∀ {b y : List Char}, '.' ∉ a → '.' ∉ b →
    a ++ '.' :: x = b ++ '.' :: y → a = b ∧ x = y := by
  induction a with
  | nil =>
    intro b y _ hb h
    cases b with
    | nil => simpa using h
    | cons d bs =>
      exfalso
      simp only [List.nil_append, List.cons_append, List.cons.injEq] at h
      exact hb (h.1 ▸ List.mem_cons_self _ _)
  | cons c as ih =>
    intro b y ha hb h
    cases b with
    | nil =>
      exfalso
      simp only [List.cons_append, List.nil_append, List.cons.injEq] at h
      exact ha (h.1 ▸ List.mem_cons_self _ _)
    | cons d bs =>
      simp only [List.cons_append, List.cons.injEq] at h
      have has : '.' ∉ as := fun hm => ha (List.mem_cons_of_mem _ hm)
      have hbs : '.' ∉ bs := fun hm => hb (List.mem_cons_of_mem _ hm)
      obtain ⟨h1, h2⟩ := ih has hbs h.2
      exact ⟨by rw [h.1, h1], h2⟩

/-- String-level form of `append_dot_inj` for paths of the shape
`prefixStr ++ taskId ++ "." ++ ext` with a fixed dot-free prefix and a
dot-free task id: equality forces equal ids. -/
theorem path_id_inj {pre id1 id2 e1 e2 : String}
    (hpre : '.' ∉ pre.data) (h1 : '.' ∉ id1.data) (h2 : '.' ∉ id2.data)
    (h : pre ++ id1 ++ "." ++ e1 = pre ++ id2 ++ "." ++ e2) : id1 = id2 := by
  have hd := congrArg String.data h
  simp only [String.data_append] at hd
  have hda : (pre.data ++ id1.data) ++ '.' :: e1.data
      = (pre.data ++ id2.data) ++ '.' :: e2.data := by
    simpa [List.append_assoc] using hd
  have hm1 : '.' ∉ pre.data ++ id1.data := by
    intro hm
    rcases List.mem_append.mp hm with hm | hm
    · exact hpre hm
    · exact h1 hm
  have hm2 : '.' ∉ pre.data ++ id2.data := by
    intro hm
    rcases List.mem_append.mp hm with hm | hm
    · exact hpre hm
    · exact h2 hm
  have := (append_dot_inj hm1 hm2 hda).1
  exact String.ext (List.append_cancel_left this)

/-! ## Claim theorems -/

/-- C7: the allowed-outputs resolver is case-insensitive (resolving `MD`
equals resolving `md`), yields a list containing `docx`, `pdf` and `html`
for the `md` extension, and yields the non-empty default list for every
unknown, empty or missing extension. -/
theorem allowed_outputs_resolver_spec :
    allowed_outputs "MD" = allowed_outputs "md" ∧
    "docx" ∈ allowed_outputs "md" ∧
    "pdf" ∈ allowed_outputs "md" ∧
    "html" ∈ allowed_outputs "md" ∧
    allowed_outputs "unknownext" = [DEFAULT_OUTPUT] ∧
    allowed_outputs "" = [DEFAULT_OUTPUT] ∧
    ∀ ext : String, allowed_outputs ext ≠ [] := by
  refine ⟨by decide, by decide, by decide, by decide, rfl, rfl, ?_⟩
  intro ext
  unfold allowed_outputs
  exact lookup_getD_ne_nil _ (by decide) _ _ (by decide)

/-- C5 counterexample: the sanitizer does not replace each disallowed
character with one underscore — the regular expression collapses each
maximal run of disallowed characters into a single underscore, so
`My Report (final)!.md` with output format `pdf` yields
`My_Report_final_.pdf`, not the claimed `My_Report__final_.pdf`. -/
theorem safe_output_name_run_collapse :
    safe_output_name exampleSanitizeTask = "My_Report_final_.pdf" ∧
    safe_output_name exampleSanitizeTask ≠ "My_Report__final_.pdf" := by
  refine ⟨rfl, by decide⟩

/-- C5 amended: the derived output filename strips directory components
and the extension, replaces each maximal run of characters outside
`[A-Za-z0-9_-]` with a single underscore, and appends the output
extension; `My Report (final)!.md` with output format `pdf` yields
`My_Report_final_.pdf`, adjacent disallowed characters collapse into one
underscore, and an empty or whitespace-only stem falls back to
`{task_id}.pdf`. -/
theorem safe_output_name_spec :
    safe_output_name exampleSanitizeTask = "My_Report_final_.pdf" ∧
    safe_output_name { exampleSanitizeTask with original_filename := "a!!b.md" }
      = "a_b.pdf" ∧
    safe_output_name { exampleSanitizeTask with original_filename := "dir/sub/name.md" }
      = "name.pdf" ∧
    safe_output_name { exampleSanitizeTask with original_filename := "   .md" }
      = "tid.pdf" ∧
    safe_output_name { exampleSanitizeTask with original_filename := "" }
      = "tid.pdf" := by
  exact ⟨rfl, rfl, rfl, rfl, rfl⟩

/-- C10: submitting an upload whose detected extension is `docx` without
an explicit output format is rejected before any task is created, because
the implicit default output `docx` is not in the allowed-outputs list for
`docx` inputs. -/
theorem docx_default_output_rejected :
    ∀ (taskId name markdownText : String),
      detectInputExt (some name) = "docx" →
      "docx" ∉ allowed_outputs "docx" ∧
      ∃ e, submitTask taskId (some name) markdownText none = Except.error e := by
  intro taskId name markdownText h
  refine ⟨by decide, "Unsupported output format docx for input type docx.", ?_⟩
  have hne : ¬ ((some name : Option String) = none ∧ markdownText = "") := by
    rintro ⟨h1, -⟩
    exact Option.noConfusion h1
  unfold submitTask
  rw [if_neg hne, h]
  rfl

/-- C10 witness: the file name `file.docx` detects as extension `docx`
and its submission with no output format is rejected. -/
theorem docx_default_output_rejected_witness :
    "docx" ∉ allowed_outputs "docx" ∧
    ∃ e, submitTask "t9" (some "file.docx") "" none = Except.error e :=
  docx_default_output_rejected "t9" "file.docx" "" (by decide)

/-- Terminal state of a successful attempt, for either executor. -/
theorem execFinal_success (p1 p2 : Nat) (g : String) (t : Task) (a : Attempt)
    (h : attemptSuccess a = true) :
    execFinal p1 p2 g t a
      = { t with status := .done, progress := 100,
                 result_file := outputRelPath t, error_message := "" } := by
  cases a with
  | ran rc so se ex =>
    simp only [attemptSuccess] at h
    simp [execFinal, execTrace, h]
  | raised m => simp [attemptSuccess] at h

/-- Terminal state of a completed subprocess run that failed (non-zero
exit or missing output file), for either executor. -/
theorem execFinal_ran_failure (p1 p2 : Nat) (g : String) (t : Task)
    (rc : Int) (so se : String) (ex : Bool)
    (h : attemptSuccess (Attempt.ran rc so se ex) = false) :
    execFinal p1 p2 g t (Attempt.ran rc so se ex)
      = { t with status := .failed, progress := 0,
                 error_message := pyOrS se (pyOrS so g) } := by
  simp only [attemptSuccess] at h
  simp [execFinal, execTrace, h]

/-- Terminal state of an attempt interrupted by an exception (including
the subprocess timeout in the reactive executor), for either executor. -/
theorem execFinal_raised (p1 p2 : Nat) (g : String) (t : Task) (m : String) :
    execFinal p1 p2 g t (Attempt.raised m)
      = { t with status := .failed, progress := 0, error_message := m } := by
  simp [execFinal, execTrace]

/-- Either executor reaches DONE exactly on a successful attempt. -/
theorem execFinal_done_iff (p1 p2 : Nat) (g : String) (t : Task) (a : Attempt) :
    (execFinal p1 p2 g t a).status = .done ↔ attemptSuccess a = true := by
  cases a with
  | ran rc so se ex =>
    by_cases h : (rc == 0 && ex) = true
    · simp [execFinal, execTrace, attemptSuccess, h]
    · rw [Bool.not_eq_true] at h
      simp [execFinal, execTrace, attemptSuccess, h]
  | raised m => simp [execFinal, execTrace, attemptSuccess]

/-- Either executor always terminates in DONE or FAILED, never back in
PENDING or stuck in PROCESSING. -/
theorem execFinal_status_cases (p1 p2 : Nat) (g : String) (t : Task) (a : Attempt) :
    (execFinal p1 p2 g t a).status = .done ∨ (execFinal p1 p2 g t a).status = .failed := by
  cases a with
  | ran rc so se ex =>
    by_cases h : (rc == 0 && ex) = true
    · left
      simp [execFinal, execTrace, h]
    · right
      rw [Bool.not_eq_true] at h
      simp [execFinal, execTrace, h]
  | raised m =>
    right
    simp [execFinal, execTrace]

/-- C2: either executor marks a task DONE exactly when the converter
subprocess exits with status zero and the output file exists on disk; on
that success it sets `result_file` to the output path relative to the
storage root, status to DONE, progress to 100, and clears
`error_message` (all other fields unchanged). -/
theorem executor_done_iff_success :
    ∀ (t : Task) (a : Attempt),
      ((signalsFinal t a).status = .done ↔ attemptSuccess a = true) ∧
      ((workerFinal t a).status = .done ↔ attemptSuccess a = true) ∧
      (attemptSuccess a = true →
        signalsFinal t a
          = { t with status := .done, progress := 100,
                     result_file := outputRelPath t, error_message := "" } ∧
        workerFinal t a
          = { t with status := .done, progress := 100,
                     result_file := outputRelPath t, error_message := "" }) := by
  intro t a
  refine ⟨execFinal_done_iff 20 40 signalsGenericMsg t a,
          execFinal_done_iff 5 20 workerGenericMsg t a, fun h => ?_⟩
  exact ⟨execFinal_success 20 40 signalsGenericMsg t a h,
         execFinal_success 5 20 workerGenericMsg t a h⟩

/-- C2 witness: a zero-exit run with an existing output file drives a
fresh task to DONE with the relative output path recorded. -/
theorem executor_done_iff_success_witness :
    attemptSuccess (Attempt.ran 0 "" "" true) = true ∧
    signalsFinal (newTask "w2" "docx" "") (Attempt.ran 0 "" "" true)
      = { (newTask "w2" "docx" "") with
          status := .done, progress := 100,
          result_file := outputRelPath (newTask "w2" "docx" ""),
          error_message := "" } :=
  ⟨by decide,
   ((executor_done_iff_success (newTask "w2" "docx" "") (Attempt.ran 0 "" "" true)).2.2
     (by decide)).1⟩

/-- C3 counterexample: a caught exception whose text is empty (as with a
bare Python exception raised during the attempt) yields a FAILED task
whose `error_message` is the empty string — not the standard-error
stream, not standard output, and not a generic non-empty message. -/
theorem executor_failure_empty_message :
    (signalsFinal (newTask "t1" "docx" "") (Attempt.raised "")).status = .failed ∧
    (signalsFinal (newTask "t1" "docx" "") (Attempt.raised "")).error_message = "" :=
  ⟨rfl, rfl⟩

/-- C3 amended: every failed attempt leaves the task FAILED with progress
0 and is absorbed by the executor (the terminal save always happens, so
the fault never propagates).  When the subprocess ran and failed,
`error_message` is its standard error, falling back to standard output,
falling back to a generic non-empty message; when the attempt raised an
exception (including the reactive executor timeout), `error_message` is
the exception text, which the code does not guarantee to be non-empty. -/
theorem executor_failure_spec :
    ∀ (t : Task) (a : Attempt), attemptSuccess a = false →
      ((signalsFinal t a).status = .failed ∧ (signalsFinal t a).progress = 0 ∧
       (workerFinal t a).status = .failed ∧ (workerFinal t a).progress = 0) ∧
      (∀ rc so se ex, a = Attempt.ran rc so se ex →
        (signalsFinal t a).error_message = pyOrS se (pyOrS so signalsGenericMsg) ∧
        (workerFinal t a).error_message = pyOrS se (pyOrS so workerGenericMsg) ∧
        (signalsFinal t a).error_message ≠ "" ∧
        (workerFinal t a).error_message ≠ "") ∧
      (∀ m, a = Attempt.raised m →
        (signalsFinal t a).error_message = m ∧
        (workerFinal t a).error_message = m) := by
  intro t a hfail
  refine ⟨?_, ?_, ?_⟩
  · cases a with
    | ran rc so se ex =>
      rw [show signalsFinal t (Attempt.ran rc so se ex)
            = execFinal 20 40 signalsGenericMsg t (Attempt.ran rc so se ex) from rfl,
          show workerFinal t (Attempt.ran rc so se ex)
            = execFinal 5 20 workerGenericMsg t (Attempt.ran rc so se ex) from rfl,
          execFinal_ran_failure _ _ _ _ _ _ _ _ hfail,
          execFinal_ran_failure _ _ _ _ _ _ _ _ hfail]
      exact ⟨rfl, rfl, rfl, rfl⟩
    | raised m =>
      rw [show signalsFinal t (Attempt.raised m)
            = execFinal 20 40 signalsGenericMsg t (Attempt.raised m) from rfl,
          show workerFinal t (Attempt.raised m)
            = execFinal 5 20 workerGenericMsg t (Attempt.raised m) from rfl,
          execFinal_raised, execFinal_raised]
      exact ⟨rfl, rfl, rfl, rfl⟩
  · rintro rc so se ex rfl
    rw [show signalsFinal t (Attempt.ran rc so se ex)
          = execFinal 20 40 signalsGenericMsg t (Attempt.ran rc so se ex) from rfl,
        show workerFinal t (Attempt.ran rc so se ex)
          = execFinal 5 20 workerGenericMsg t (Attempt.ran rc so se ex) from rfl,
        execFinal_ran_failure _ _ _ _ _ _ _ _ hfail,
        execFinal_ran_failure _ _ _ _ _ _ _ _ hfail]
    refine ⟨rfl, rfl, ?_, ?_⟩
    · exact pyOrS_ne_empty (pyOrS_ne_empty (by decide))
    · exact pyOrS_ne_empty (pyOrS_ne_empty (by decide))
  · rintro m rfl
    rw [show signalsFinal t (Attempt.raised m)
          = execFinal 20 40 signalsGenericMsg t (Attempt.raised m) from rfl,
        show workerFinal t (Attempt.raised m)
          = execFinal 5 20 workerGenericMsg t (Attempt.raised m) from rfl,
        execFinal_raised, execFinal_raised]
    exact ⟨rfl, rfl⟩

/-- C3 witness: a run exiting with status 1 and empty streams fails a
fresh task with the generic message of each executor. -/
theorem executor_failure_spec_witness :
    attemptSuccess (Attempt.ran 1 "" "" false) = false ∧
    (signalsFinal (newTask "w3" "docx" "") (Attempt.ran 1 "" "" false)).status = .failed ∧
    (signalsFinal (newTask "w3" "docx" "") (Attempt.ran 1 "" "" false)).error_message
      = pyOrS "" (pyOrS "" signalsGenericMsg) :=
  ⟨by decide,
   (executor_failure_spec (newTask "w3" "docx" "") (Attempt.ran 1 "" "" false)
     (by decide)).1.1,
   ((executor_failure_spec (newTask "w3" "docx" "") (Attempt.ran 1 "" "" false)
     (by decide)).2.1 1 "" "" false rfl).1⟩

/-- C6 counterexample: the two dispatch strategies do not both bound the
converter subprocess by a 60-second timeout — the polling worker invokes
`subprocess.run` with no timeout argument at all. -/
theorem worker_subprocess_no_timeout :
    ¬ (signalsSubprocessTimeout = some 60 ∧ workerSubprocessTimeout = some 60) := by
  decide

/-- C6 amended: only the reactive background-thread executor bounds the
converter subprocess by the fixed 60-second timeout; the polling worker
passes no timeout.  In the reactive executor, exceeding the timeout
raises an exception whose handling produces the same terminal status and
progress as a non-zero exit code (the task transitions to FAILED). -/
theorem subprocess_timeout_spec :
    signalsSubprocessTimeout = some 60 ∧
    workerSubprocessTimeout = none ∧
    ∀ (t : Task) (m : String),
      (signalsFinal t (Attempt.raised m)).status = .failed ∧
      (signalsFinal t (Attempt.raised m)).status
        = (signalsFinal t (Attempt.ran 1 "" "" false)).status ∧
      (signalsFinal t (Attempt.raised m)).progress
        = (signalsFinal t (Attempt.ran 1 "" "" false)).progress := by
  refine ⟨rfl, rfl, fun t m => ?_⟩
  rw [show signalsFinal t (Attempt.raised m)
        = execFinal 20 40 signalsGenericMsg t (Attempt.raised m) from rfl,
      show signalsFinal t (Attempt.ran 1 "" "" false)
        = execFinal 20 40 signalsGenericMsg t (Attempt.ran 1 "" "" false) from rfl,
      execFinal_raised, execFinal_ran_failure _ _ _ _ _ _ _ _ (by decide)]
  exact ⟨rfl, rfl, rfl⟩

/-- Every state saved during one execution attempt on a PENDING task
satisfying the invariant keeps satisfying it, provided the generic
failure message is non-empty and any caught exception text is
non-empty. -/
theorem execTrace_preserves_inv (p1 p2 : Nat) (g : String) (hg : g ≠ "")
    (t : Task) (a : Attempt) (hP : attemptMsgNonempty a)
    (hpend : t.status = .pending) (hinv : TaskInv t) :
    ∀ s ∈ execTrace p1 p2 g t a, TaskInv s := by
  have hrf : t.result_file = "" := by
    by_contra hc
    have := hinv.1.mp hc
    rw [hpend] at this
    exact TaskStatus.noConfusion this
  have herr : t.error_message = "" := by
    by_contra hc
    have := hinv.2.mp hc
    rw [hpend] at this
    exact TaskStatus.noConfusion this
  intro s hs
  cases a with
  | ran rc so se ex =>
    by_cases h : (rc == 0 && ex) = true
    · simp only [execTrace, h, if_true, List.mem_cons, List.not_mem_nil, or_false] at hs
      rcases hs with rfl | rfl | rfl
      · exact ⟨by simp [hrf], by simp [herr]⟩
      · exact ⟨by simp [hrf], by simp [herr]⟩
      · exact ⟨by simp [outputRelPath_ne_empty t], by simp⟩
    · rw [Bool.not_eq_true] at h
      simp only [execTrace, h, Bool.false_eq_true, if_false, List.mem_cons,
        List.not_mem_nil, or_false] at hs
      rcases hs with rfl | rfl | rfl
      · exact ⟨by simp [hrf], by simp [herr]⟩
      · exact ⟨by simp [hrf], by simp [herr]⟩
      · exact ⟨by simp [hrf], by simp [pyOrS_ne_empty (pyOrS_ne_empty hg)]⟩
  | raised m =>
    simp only [execTrace, List.mem_cons, List.not_mem_nil, or_false] at hs
    have hm : m ≠ "" := hP
    rcases hs with rfl | rfl | rfl
    · exact ⟨by simp [hrf], by simp [herr]⟩
    · exact ⟨by simp [hrf], by simp [herr]⟩
    · exact ⟨by simp [hrf], by simp [hm]⟩

/-- C4 counterexample: the mutual-exclusivity invariant breaks on the
catch-all exception path — an exception with empty text leaves a
reachable FAILED task whose `error_message` is empty. -/
theorem task_fields_invariant_break :
    Reachable (signalsFinal (newTask "t1" "docx" "") (Attempt.raised "")) ∧
    (signalsFinal (newTask "t1" "docx" "") (Attempt.raised "")).status = .failed ∧
    (signalsFinal (newTask "t1" "docx" "") (Attempt.raised "")).error_message = "" := by
  exact ⟨ReachableW.sigStep (a := Attempt.raised "")
    (ReachableW.created "t1" "docx" "") rfl trivial (by decide), rfl, rfl⟩

/-- C4 amended: in the single-dispatch lifecycle (every execution attempt
starts from a PENDING task), `result_file` is populated iff status is
DONE and `error_message` is non-empty iff status is FAILED after every
store write — provided every exception caught by the catch-all handler
carries non-empty text; an empty exception text (and, separately, the
re-execution race of C9) breaks the equivalence. -/
theorem task_fields_invariant :
    ∀ t : Task, ReachableW attemptMsgNonempty t → TaskInv t := by
  intro t h
  induction h with
  | created taskId fmt orig => exact ⟨by simp [newTask], by simp [newTask]⟩
  | sigStep ht hpend hP hmem ih =>
    exact execTrace_preserves_inv 20 40 signalsGenericMsg (by decide) _ _ hP hpend ih _ hmem
  | workStep ht hpend hP hmem ih =>
    exact execTrace_preserves_inv 5 20 workerGenericMsg (by decide) _ _ hP hpend ih _ hmem

/-- C4 witness: the invariant holds at a freshly created task. -/
theorem task_fields_invariant_witness :
    TaskInv (newTask "w4" "docx" "") :=
  task_fields_invariant _ (ReachableW.created "w4" "docx" "")

/-- C1 counterexample: two distinct tasks submitted with the same
original filename and output format are written to the same output
location — the output path is not namespaced by task id when the
sanitized original filename is non-empty. -/
theorem output_paths_collide :
    exampleTaskA.id ≠ exampleTaskB.id ∧
    outputRelPath exampleTaskA = outputRelPath exampleTaskB :=
  ⟨by decide, rfl⟩

/-- Reassociation helper for media-root paths. -/
theorem append_dot_reassoc (s u v : String) :
    s ++ (u ++ "." ++ v) = s ++ u ++ "." ++ v := by
  apply String.ext
  simp [String.data_append, List.append_assoc]

/-- Tasks with an empty original filename derive their output name from
the task id. -/
theorem safe_output_name_of_no_original {t : Task} (h : t.original_filename = "") :
    safe_output_name t
      = t.id ++ "." ++ pyLstripDot (if t.output_format = "" then DEFAULT_OUTPUT
                                    else t.output_format) := by
  unfold safe_output_name
  rw [if_neg (c := t.original_filename ≠ "") (fun hc => hc h)]

/-- C1 amended: input file locations are namespaced by task id and never
collide for distinct tasks with dot-free ids; output locations are
id-namespaced (hence collision-free) only when the original filename is
empty (or sanitizes to empty) — otherwise two tasks sharing a sanitized
filename and format collide. -/
theorem placement_paths_spec :
    ∀ (t1 t2 : Task) (e1 e2 : String),
      t1.id ≠ t2.id → '.' ∉ t1.id.data → '.' ∉ t2.id.data →
      (inputRelPath t1.id e1 ≠ inputRelPath t2.id e2) ∧
      (t1.original_filename = "" → t2.original_filename = "" →
        outputRelPath t1 ≠ outputRelPath t2) := by
  intro t1 t2 e1 e2 hne h1 h2
  constructor
  · intro heq
    unfold inputRelPath at heq
    exact hne (path_id_inj (by decide) h1 h2 heq)
  · intro ho1 ho2 heq
    unfold outputRelPath at heq
    rw [safe_output_name_of_no_original ho1, safe_output_name_of_no_original ho2,
        append_dot_reassoc, append_dot_reassoc] at heq
    exact hne (path_id_inj (by decide) h1 h2 heq)

/-- C1 witness: two concrete tasks with distinct dot-free ids have
distinct input paths, and distinct output paths when the original
filename is empty. -/
theorem placement_paths_spec_witness :
    inputRelPath "aaaa-1111" "md" ≠ inputRelPath "bbbb-2222" "docx" ∧
    outputRelPath (newTask "aaaa-1111" "docx" "")
      ≠ outputRelPath (newTask "bbbb-2222" "docx" "") :=
  ⟨(placement_paths_spec (newTask "aaaa-1111" "docx" "") (newTask "bbbb-2222" "docx" "")
      "md" "docx" (by decide) (by decide) (by decide)).1,
   (placement_paths_spec (newTask "aaaa-1111" "docx" "") (newTask "bbbb-2222" "docx" "")
      "md" "docx" (by decide) (by decide) (by decide)).2 rfl rfl⟩

/-- C8 counterexample: deleting a task whose uploaded input was persisted
with a non-`md` extension leaves the input file behind — the view only
removes `uploads/{id}.md`, so an input stored as `uploads/t1.docx`
survives deletion while the record and output are removed. -/
theorem delete_task_leaves_docx_input :
    "uploads/t1.docx" ∈ exampleDeleteStore.files ∧
    (delete_task exampleDeleteStore "t1").tasks = [] ∧
    "uploads/t1.docx" ∈ (delete_task exampleDeleteStore "t1").files :=
  ⟨by decide, rfl, by decide⟩

/-- C8 amended: deleting an existing task removes the record, the stored
output file, and the persisted input only when it was stored with the
`md` extension (inputs persisted with another extension remain); missing
files are ignored, and deleting a nonexistent task id is a no-op. -/
theorem delete_task_spec :
    ∀ (st : Store) (tid : String),
      (st.tasks.find? (fun t => t.id == tid) = none → delete_task st tid = st) ∧
      (∀ task, st.tasks.find? (fun t => t.id == tid) = some task →
        (∀ t ∈ (delete_task st tid).tasks, t.id ≠ tid) ∧
        ("uploads/" ++ tid ++ ".md") ∉ (delete_task st tid).files ∧
        (task.result_file ≠ "" → task.result_file ∉ (delete_task st tid).files)) := by
  intro st tid
  constructor
  · intro h
    unfold delete_task
    rw [h]
  · intro task h
    have hid : task.id = tid := by
      have := List.find?_some h
      simpa using this
    unfold delete_task
    rw [h]
    refine ⟨?_, ?_, ?_⟩
    · intro t ht
      exact of_decide_eq_true (List.mem_filter.mp ht).2
    · intro hmem
      have hp := (List.mem_filter.mp hmem).2
      rw [hid] at hp
      simp at hp
    · intro hrf hmem
      have hp1 := List.mem_filter.mp hmem
      have hmem1 := hp1.1
      rw [if_pos hrf] at hmem1
      have hp2 := (List.mem_filter.mp hmem1).2
      simp at hp2

/-- C8 witness: deletion on the concrete store removes the upload at the
`md` path and the stored output, and deleting from an empty store is a
no-op. -/
theorem delete_task_spec_witness :
    ("uploads/" ++ "t1" ++ ".md") ∉ (delete_task exampleDeleteStore "t1").files ∧
    ("exports/in.pdf" : String) ∉ (delete_task exampleDeleteStore "t1").files ∧
    delete_task { tasks := [], files := [] } "t1" = { tasks := [], files := [] } :=
  ⟨((delete_task_spec exampleDeleteStore "t1").2 exampleDeleteTask rfl).2.1,
   ((delete_task_spec exampleDeleteStore "t1").2 exampleDeleteTask rfl).2.2 (by decide),
   (delete_task_spec { tasks := [], files := [] } "t1").1 rfl⟩

/-- Invariant of the dispatcher system: a task still PENDING has never
been executed, and the number of converter invocations is bounded by one
while the creation-spawned thread is still due, by two after it ran. -/
def DispatchInv (s : SysState) : Prop :=
  (s.task.status = .pending → s.invocations = 0) ∧
  s.invocations ≤ (if s.threadDue then 1 else 2)

/-- One dispatcher event preserves the dispatcher invariant. -/
theorem dispatchStep_inv {s : SysState} (h : DispatchInv s) (op : DispatchOp) :
    DispatchInv (dispatchStep s op) := by
  obtain ⟨h0, hb⟩ := h
  cases op with
  | workerScan a =>
    by_cases hp : s.task.status = .pending
    · have hz := h0 hp
      simp only [dispatchStep, if_pos hp]
      refine ⟨fun hnd => ?_, ?_⟩
      · exfalso
        rcases execFinal_status_cases 5 20 workerGenericMsg s.task a with hd | hd <;>
          exact TaskStatus.noConfusion (hd.symm.trans hnd)
      · show s.invocations + 1 ≤ if s.threadDue = true then 1 else 2
        rw [hz]
        by_cases htd : s.threadDue = true
        · rw [if_pos htd]
        · rw [if_neg htd]
          omega
    · simp only [dispatchStep, if_neg hp]
      exact ⟨h0, hb⟩
  | threadRun a =>
    by_cases ht : s.threadDue = true
    · rw [if_pos ht] at hb
      simp only [dispatchStep, if_pos ht]
      refine ⟨fun hnd => ?_, ?_⟩
      · exfalso
        rcases execFinal_status_cases 20 40 signalsGenericMsg s.task a with hd | hd <;>
          exact TaskStatus.noConfusion (hd.symm.trans hnd)
      · show s.invocations + 1 ≤ if (false : Bool) = true then 1 else 2
        rw [if_neg Bool.false_ne_true]
        omega
    · simp only [dispatchStep, if_neg ht]
      exact ⟨h0, hb⟩

/-- Running any schedule of dispatcher events preserves the invariant. -/
theorem runOps_inv {s : SysState} (h : DispatchInv s) (ops : List DispatchOp) :
    DispatchInv (runOps s ops) := by
  induction ops generalizing s with
  | nil => exact h
  | cons op rest ih => exact ih (dispatchStep_inv h op)

/-- Worker-only schedules never clear the spawned-thread flag. -/
theorem runOps_threadDue {s : SysState} (ops : List DispatchOp)
    (h : ∀ op ∈ ops, ∃ a, op = DispatchOp.workerScan a) :
    (runOps s ops).threadDue = s.threadDue := by
  induction ops generalizing s with
  | nil => rfl
  | cons op rest ih =>
    obtain ⟨a, rfl⟩ := h op (List.mem_cons_self _ _)
    have hrest : ∀ op ∈ rest, ∃ a, op = DispatchOp.workerScan a :=
      fun op hop => h op (List.mem_cons_of_mem _ hop)
    have hstep : (dispatchStep s (DispatchOp.workerScan a)).threadDue = s.threadDue := by
      simp only [dispatchStep]
      split <;> rfl
    rw [show runOps s (DispatchOp.workerScan a :: rest)
          = runOps (dispatchStep s (DispatchOp.workerScan a)) rest from rfl,
        ih hrest, hstep]

/-- C9 counterexample: the polling worker completes the task, then the
creation-spawned thread runs `_process_task`, which performs no status
check and re-executes — the converter is invoked twice for one task. -/
theorem dispatch_double_execution :
    (runOps (initState "t1" "docx" "") exampleRaceOps).invocations = 2 ∧
    ¬ ((runOps (initState "t1" "docx" "") exampleRaceOps).invocations ≤ 1) :=
  ⟨rfl, by decide⟩

/-- C9 amended: the polling worker alone executes a task at most once (it
only picks up PENDING tasks and execution leaves the task non-PENDING),
but the creation-spawned thread re-checks nothing before executing, so
with both dispatch strategies active a task can be executed up to twice
— at-most-once execution does not hold across strategies. -/
theorem dispatch_at_most_spec :
    ∀ (taskId fmt orig : String) (ops : List DispatchOp),
      (runOps (initState taskId fmt orig) ops).invocations ≤ 2 ∧
      ((∀ op ∈ ops, ∃ a, op = DispatchOp.workerScan a) →
        (runOps (initState taskId fmt orig) ops).invocations ≤ 1) := by
  intro taskId fmt orig ops
  have hinv0 : DispatchInv (initState taskId fmt orig) := by
    refine ⟨fun _ => rfl, ?_⟩
    simp [initState]
  have hinv := runOps_inv hinv0 ops
  constructor
  · have hb := hinv.2
    split at hb <;> omega
  · intro hw
    have ht : (runOps (initState taskId fmt orig) ops).threadDue = true := by
      rw [runOps_threadDue ops hw]
      rfl
    have hb := hinv.2
    rw [ht] at hb
    simpa using hb

/-- C9 witness: a single worker pickup executes the task once. -/
theorem dispatch_at_most_spec_witness :
    (runOps (initState "w9" "docx" "")
      [DispatchOp.workerScan (Attempt.ran 0 "" "" true)]).invocations ≤ 1 :=
  (dispatch_at_most_spec "w9" "docx" ""
      [DispatchOp.workerScan (Attempt.ran 0 "" "" true)]).2
    (fun op hop => ⟨Attempt.ran 0 "" "" true, by simpa using hop⟩)

end Md2Docx
